import Mathlib

/-!
Lean model of the akashic-mcp server (`src/index.js`).

The JavaScript source is embedded shallowly:
* JS strings are Lean `String`s; the JS string operations used by the code
  (`includes`, `startsWith`, `toLowerCase`, `trim`, `substring`, `Array.join`,
  `split`) are modelled at the character-list level so that they compute.
* The filesystem is an explicit state (`FS`): a set of existing directories and
  a map from paths to file contents.  `fs.writeFileSync`/`fs.mkdirSync` are
  state updates; I/O failures are not modelled.
* Node `path` functions are modelled for POSIX paths: `path.isAbsolute` is a
  leading slash test, `path.resolve(cwd, p)` joins with a slash (no `.`/`..`
  collapsing is modelled; no verified claim depends on segment collapsing).
* The stateful singletons (`getProxyClient`, `mcpServerPromise`) and the SSE
  transport registry (`sseTransports`) are modelled as explicit transition
  systems over event traces, with promise resolution as separate events.
-/

namespace AkashicMCP

/-- Model of the JS `String.prototype.includes` substring test. -/
def jsIncludes (s pat : String) : Bool := decide (pat.data <:+: s.data)

/-- Model of the JS `String.prototype.startsWith` test (also used for
`path.isAbsolute` on POSIX, which tests for a leading slash). -/
def startsWithStr (s pre : String) : Bool := decide (pre.data <+: s.data)

/-- Model of the JS `String.prototype.toLowerCase`. -/
def jsToLower (s : String) : String := String.mk (s.data.map Char.toLower)

/-- Model of the JS `String.prototype.trim`: strip whitespace at both ends. -/
def jsTrim (s : String) : String :=
  String.mk (((s.data.dropWhile Char.isWhitespace).reverse.dropWhile
    Char.isWhitespace).reverse)

/-- Model of the JS `String.prototype.substring(0, n)` truncation. -/
def jsSubstring (s : String) (n : Nat) : String := String.mk (s.data.take n)

/-- Model of the JS `Array.prototype.join(sep)` on an array of strings. -/
def joinSep (sep : String) : List String → String
  | [] => ""
  | [x] => x
  | x :: y :: xs => x ++ sep ++ joinSep sep (y :: xs)

/-- Model of the JS `a || b` on strings: the empty string is falsy. -/
def jsOrStr (a b : String) : String := if a = "" then b else a

/-- The first line of a string: characters up to the first newline. -/
def firstLine (s : String) : String := String.mk (s.data.takeWhile (· ≠ '\n'))

/-- Split a character list on the path separator, keeping empty segments
(the behaviour of splitting a path string on every slash). -/
def splitOnSlash : List Char → List (List Char)
  | [] => [[]]
  | c :: rest =>
    if c = '/' then [] :: splitOnSlash rest
    else
      match splitOnSlash rest with
      | [] => [[c]]
      | s :: ss => (c :: s) :: ss

/-- A relative path has a parent-traversal segment when `..` occurs as a
whole slash-separated component. -/
def hasDotDotSegment (p : String) : Bool := decide (['.', '.'] ∈ splitOnSlash p.data)

/-- JSON values, as produced by `JSON.parse`. -/
inductive JVal where
  | null
  | bool (b : Bool)
  | num (n : Int)
  | str (s : String)
  | arr (xs : List JVal)
  | obj (fields : List (String × JVal))

/-- Field lookup in a JSON object literal. -/
def lookupField : List (String × JVal) → String → Option JVal
  | [], _ => none
  | (k, v) :: rest, key => if k = key then some v else lookupField rest key

/-- Model of JS property access `j[k]` on a parsed JSON value: `none` is
`undefined`. -/
def getField : JVal → String → Option JVal
  | .obj fs, k => lookupField fs k
  | _, _ => none

/-- JS truthiness of a parsed JSON value. -/
def jsTruthy : JVal → Bool
  | .null => false
  | .bool b => b
  | .num n => n != 0
  | .str s => s != ""
  | .arr _ => true
  | .obj _ => true

/-- Model of `typeof v === "object"` on a parsed JSON value (in JS, `null`,
arrays and objects all have typeof `"object"`). -/
def typeofObject : JVal → Bool
  | .null => true
  | .arr _ => true
  | .obj _ => true
  | _ => false

/-- The `name` field of the body when it is present and a string
(`typeof body.name === "string"`). -/
def nameField (j : JVal) : Option String :=
  match getField j "name" with
  | some (.str s) => some s
  | _ => none

/-- The `arguments` the handler forwards:
`body.arguments && typeof body.arguments === "object" ? body.arguments : \x7b\x7d`. -/
def argsField (j : JVal) : JVal :=
  match getField j "arguments" with
  | some a => if jsTruthy a && typeofObject a then a else .obj []
  | none => .obj []

/-- One content item of an MCP tool result (`type: "text"` blocks). -/
structure ContentItem where
  type : String
  text : String
deriving DecidableEq

/-- An MCP tool result: content blocks plus the `isError` flag (absent in the
JS success results, which is modelled as `false`). -/
structure ToolResult where
  content : List ContentItem
  isError : Bool := false
deriving DecidableEq

/-- An HTTP response produced by the handler in `main()`: `sendJson` with an
error object, `sendJson` with a tool result, or a plain-text response. -/
inductive HttpResp where
  | jsonErr (status : Nat) (error : String)
  | jsonResult (status : Nat) (result : ToolResult)
  | text (status : Nat) (body : String)
deriving DecidableEq

/-- The content block shape `\x7b type: "text", text: s \x7d` used by every
tool handler. -/
def textContent (s : String) : ContentItem := { type := "text", text := s }

/-- A success tool result (`isError` absent, i.e. false). -/
def okResult (s : String) : ToolResult := { content := [textContent s] }

/-- An error tool result (`isError: true`). -/
def errResult (s : String) : ToolResult :=
  { content := [textContent s], isError := true }

/-- A document of `data/akashic_docs.json`; a missing/empty JSON field is the
empty string (both are falsy in the JS guards). -/
structure Doc where
  title : String
  url : String
  content : String

/-- The filter of the `search_akashic_docs` handler:
`(doc.title && doc.title.toLowerCase().includes(q)) ||
 (doc.content && doc.content.toLowerCase().includes(q))`
where `q` is the lowercased query. -/
def docMatches (q : String) (d : Doc) : Bool :=
  (d.title != "" && jsIncludes (jsToLower d.title) q) ||
  (d.content != "" && jsIncludes (jsToLower d.content) q)

/-- The per-document rendering of the `search_akashic_docs` handler, with the
content truncated by `substring(0, 500)`. -/
def formatDoc (d : Doc) : String :=
  "Title: " ++ d.title ++ "\nURL: " ++ d.url ++ "\n\n" ++
    jsSubstring d.content 500 ++ "..."

/-- The `results` array of the `search_akashic_docs` handler:
filter on title/content match, `slice(0, 3)`, then format. -/
def searchResults (docs : List Doc) (query : String) : List String :=
  ((docs.filter (docMatches (jsToLower query))).take 3).map formatDoc

/-- The `search_akashic_docs` tool handler:
`results.join("\n\n---\n\n") || "No relevant documents found."`. -/
def searchAkashicDocs (docs : List Doc) (query : String) : ToolResult :=
  okResult (jsOrStr (joinSep "\n\n---\n\n" (searchResults docs query))
    "No relevant documents found.")

/-- The outcome of `await readJsonBody(req)`: the function returns `null` for
an empty raw body, `undefined` when `JSON.parse` throws, and the parsed value
otherwise.  `JSON.parse` itself is a parameter (`parse`): it is library code,
not part of this repository. -/
inductive BodyRead where
  | invalidJson
  | value (j : JVal)

/-- Model of `readJsonBody` over the raw request body. -/
def readJsonBody (parse : String → Option JVal) (raw : String) : BodyRead :=
  if raw = "" then .value .null
  else
    match parse raw with
    | some j => .value j
    | none => .invalidJson

/-- The `POST /proxy/call` handler of `main()`, with the proxy client's
`callTool` as a parameter `ct` (the client side is MCP SDK library code). -/
def handleProxyCall (parse : String → Option JVal) (ct : String → JVal → ToolResult)
    (raw : String) : HttpResp :=
  match readJsonBody parse raw with
  | .invalidJson => .jsonErr 400 "Invalid JSON body."
  | .value body =>
    if !(jsTruthy body) then .jsonErr 400 "Missing tool name."
    else
      match nameField body with
      | none => .jsonErr 400 "Missing tool name."
      | some nm => .jsonResult 200 (ct nm (argsField body))

/-- Modelled from the spec: the MCP SDK's `client.callTool` dispatch, which is
not part of this repository.  It routes a call whose `name` is
`search_akashic_docs` to the registered search handler and, per the spec's
scenario, answers an unregistered tool name with an `isError:true` result. -/
def searchCallTool (docs : List Doc) : String → JVal → ToolResult :=
  fun nm args =>
    if nm = "search_akashic_docs" then
      searchAkashicDocs docs
        (match getField args "query" with
          | some (.str s) => s
          | _ => "")
    else
      errResult ("Unknown tool: " ++ nm)

/-- Explicit filesystem state: the set of existing directories and a map from
absolute paths to file contents. -/
structure FS where
  dirs : List String
  files : List (String × String)

/-- Model of `fs.writeFileSync`: create or overwrite one file. -/
def setFile : List (String × String) → String → String → List (String × String)
  | [], p, c => [(p, c)]
  | (q, d) :: rest, p, c =>
    if q = p then (p, c) :: rest else (q, d) :: setFile rest p c

/-- Content of a file in the modelled filesystem. -/
def getFile : List (String × String) → String → Option String
  | [], _ => none
  | (q, d) :: rest, p => if q = p then some d else getFile rest p

/-- Model of POSIX `path.isAbsolute`. -/
def pathIsAbsolute (p : String) : Bool := startsWithStr p "/"

/-- Model of `path.resolve(cwd, p)` (and of `path.normalize` on an absolute
path): join without segment collapsing. -/
def resolvePath (cwd p : String) : String :=
  if pathIsAbsolute p then p else cwd ++ "/" ++ p

/-- Model of `path.dirname`: drop the last slash-separated segment. -/
def dirname (p : String) : String :=
  String.mk (List.intercalate ['/'] ((splitOnSlash p.data).dropLast))

/-- The `create_game_file` tool handler.  The error messages are modelled
without the quote characters of the JS literals. -/
def createGameFile (cwd filePath code : String) (fs : FS) : ToolResult × FS :=
  if !(pathIsAbsolute filePath) && jsIncludes filePath ".." then
    (errResult "Error: Invalid file path. Avoid .. in relative paths.", fs)
  else
    let fullPath := resolvePath cwd filePath
    let dir := dirname fullPath
    let fs1 : FS :=
      if dir ∈ fs.dirs then fs else { fs with dirs := fs.dirs ++ [dir] }
    (okResult ("Successfully wrote file to: " ++ filePath),
     { fs1 with files := setFile fs1.files fullPath code })

/-- The package-scope test of `akashic_install_extension`: the regex
`^@akashic(-extension)?\/` accepts exactly the names that start with
`@akashic/` or `@akashic-extension/`. -/
def approvedScope (name : String) : Bool :=
  startsWithStr name "@akashic/" || startsWithStr name "@akashic-extension/"

/-- Shell-quote an argument as the JS code does with backslash-free names. -/
def quoteArg (p : String) : String := "\"" ++ p ++ "\""

/-- The outcome of the `akashic_install_extension` handler up to the external
`akashic install` run: either an error result is returned (and no command is
run), or the handler proceeds to `execAsync` with the given command line. -/
inductive InstallOutcome where
  | errorResult (msg : String)
  | runInstall (command : String)
deriving DecidableEq

/-- The `akashic_install_extension` tool handler, up to the external command
execution.  Directory existence is membership in `fs.dirs`. -/
def akashicInstallExtension (cwd dirName : String) (packages : List String)
    (fs : FS) : InstallOutcome :=
  if !(pathIsAbsolute dirName) && jsIncludes dirName ".." then
    .errorResult "Error: Invalid directory name. Avoid .. in relative paths."
  else
    let targetPath := resolvePath cwd dirName
    if targetPath ∈ fs.dirs then
      let invalid := packages.filter (fun n => !(approvedScope n))
      if invalid.length > 0 then
        .errorResult ("Error: Invalid package scope: " ++ joinSep ", " invalid)
      else
        .runInstall ("cd " ++ quoteArg targetPath ++ " && akashic install " ++
          joinSep " " (packages.map quoteArg))
    else
      .errorResult ("Error: Directory " ++ dirName ++ " not found.")

/-- The `lines` array built by the `write_project_readme` handler.  Optional
array arguments are modelled as lists where `[]` covers both `undefined` and
an empty array (the JS guard `xs && xs.length > 0` skips both). -/
def readmeLines (title summary : String) (features controls rules : List String)
    (runtime : Option String) : List String :=
  ["# " ++ title, "", summary] ++
  (match runtime with
    | some r => if jsTrim r ≠ "" then ["", "## Runtime", jsTrim r] else []
    | none => []) ++
  (if features.length > 0 then
    ["", "## Features"] ++ features.map (fun i => "- " ++ i)
  else []) ++
  (if controls.length > 0 then
    ["", "## Controls"] ++ controls.map (fun i => "- " ++ i)
  else []) ++
  (if rules.length > 0 then
    ["", "## Rules"] ++ rules.map (fun i => "- " ++ i)
  else [])

/-- The `write_project_readme` tool handler. -/
def writeProjectReadme (cwd dirName title summary : String)
    (features controls rules : List String) (runtime : Option String)
    (fs : FS) : ToolResult × FS :=
  if !(pathIsAbsolute dirName) && jsIncludes dirName ".." then
    (errResult "Error: Invalid directory name. Avoid .. in relative paths.", fs)
  else
    let targetPath := resolvePath cwd dirName
    if targetPath ∈ fs.dirs then
      let lines := readmeLines title summary features controls rules runtime
      let readmePath := targetPath ++ "/README.md"
      (okResult "README.md written successfully.",
       { fs with files := setFile fs.files readmePath (joinSep "\n" lines ++ "\n") })
    else
      (errResult ("Error: Directory " ++ dirName ++ " not found."), fs)

/-- The value of `req.headers["mcp-session-id"]` as Node delivers it. -/
inductive HeaderVal where
  | absent
  | strV (s : String)
  | arrV (xs : List String)

/-- JS truthiness of a string-or-null value. -/
def jsTruthyOpt : Option String → Bool
  | some s => s != ""
  | none => false

/-- The query-parameter part of `getSessionId`:
`url.searchParams.get("sessionId") || url.searchParams.get("session_id")`,
then `if (querySession && querySession.trim()) return querySession.trim()`. -/
def getSessionQuery (q1 q2 : Option String) : Option String :=
  let querySession := if jsTruthyOpt q1 then q1 else q2
  match querySession with
  | some s => if s ≠ "" && jsTrim s ≠ "" then some (jsTrim s) else none
  | none => none

/-- The `getSessionId` helper: a string header with non-blank trim wins; an
array header yields its first element unchecked; otherwise the query
parameters are consulted. -/
def getSessionId (h : HeaderVal) (q1 q2 : Option String) : Option String :=
  match h with
  | .strV s => if jsTrim s ≠ "" then some (jsTrim s) else getSessionQuery q1 q2
  | .arrV (x :: _) => some x
  | .arrV [] => getSessionQuery q1 q2
  | .absent => getSessionQuery q1 q2

/-- The outcome of the `POST /mcp/messages` branch of `main()`: either a JSON
response or delegation to `transport.handlePostMessage` of the registered
transport of the session. -/
inductive MessageOutcome where
  | response (r : HttpResp)
  | delegated (sessionId : String)
deriving DecidableEq

/-- The message-endpoint handler: resolve a session id, else 400; look the
transport up in the registry, else 404; otherwise delegate. -/
def handleMessage (h : HeaderVal) (q1 q2 : Option String)
    (registry : List String) : MessageOutcome :=
  match getSessionId h q1 q2 with
  | none => .response (.jsonErr 400 "Missing sessionId.")
  | some s =>
    if s = "" then .response (.jsonErr 400 "Missing sessionId.")
    else if s ∈ registry then .delegated s
    else .response (.jsonErr 404 "Unknown sessionId.")

/-- State of the `getProxyClient` singleton: `client` models `proxyClient`
(identified by the id of the construction that produced it), `promise` models
`proxyClientPromise` (the id of the in-flight construction), and `nextCon`
numbers construction attempts so that attempts can be told apart. -/
structure PCState where
  client : Option Nat
  promise : Option Nat
  nextCon : Nat
deriving DecidableEq

/-- The process-start state: `proxyClient = null`, `proxyClientPromise = null`. -/
def pcInit : PCState := { client := none, promise := none, nextCon := 0 }

/-- What one call to `getProxyClient` hands its caller: the cached client, or
the in-flight construction it awaits. -/
inductive CallOutcome where
  | cached (c : Nat)
  | awaitCon (p : Nat)
deriving DecidableEq

/-- One call to `getProxyClient`: return the cached client if set; else share
the in-flight promise if set; else begin a fresh construction and await it.
JS runs each synchronous section to completion, so the three checks and the
assignment are one atomic step. -/
def pcCall (s : PCState) : PCState × CallOutcome :=
  match s.client with
  | some c => (s, .cached c)
  | none =>
    match s.promise with
    | some p => (s, .awaitCon p)
    | none =>
      ({ s with promise := some s.nextCon, nextCon := s.nextCon + 1 },
       .awaitCon s.nextCon)

/-- Events of the `getProxyClient` system: a call, or the in-flight
construction settling.  On success the async body runs
`proxyClient = client; proxyClientPromise = null` (one synchronous section);
on failure the catch runs `proxyClientPromise = null` and rethrows. -/
inductive PCEvent where
  | call
  | resolveOk
  | resolveFail

/-- One step of the `getProxyClient` system. -/
def pcStep (s : PCState) : PCEvent → PCState
  | .call => (pcCall s).1
  | .resolveOk =>
    match s.promise with
    | some p => { s with client := some p, promise := none }
    | none => s
  | .resolveFail => { s with promise := none }

/-- Run the `getProxyClient` system over an event trace. -/
def pcRun (s : PCState) : List PCEvent → PCState
  | [] => s
  | e :: es => pcRun (pcStep s e) es

/-- State of the shared MCP server construction (`mcpServerPromise`):
`unset` is `null`; `pending` is an unsettled `createMcpServer()` promise;
`rOk` and `rFail` are the settled promise.  `started` counts how many times
`createMcpServer()` was invoked, `waiters` counts requests awaiting the
pending promise, and `responses` logs what each streaming request got. -/
inductive MPState where
  | unset
  | pending
  | rOk
  | rFail
deriving DecidableEq

/-- What one streaming-connection request eventually yields: a connected
transport, or the outer catch's 500 `Internal Server Error`. -/
inductive SrvResp where
  | connected
  | err500
deriving DecidableEq

/-- State of the SSE-endpoint branch of `main()`. -/
structure SrvState where
  mcp : MPState
  started : Nat
  waiters : Nat
  responses : List SrvResp
deriving DecidableEq

/-- The process-start state: `mcpServerPromise = null`. -/
def srvInit : SrvState :=
  { mcp := .unset, started := 0, waiters := 0, responses := [] }

/-- Events of the SSE-endpoint system: a GET on the streaming path, or the
`createMcpServer()` promise settling. -/
inductive SrvEvent where
  | sseReq
  | resolveOk
  | resolveFail

/-- One step: a request either starts the construction (only from `unset`),
joins the pending construction, proceeds on the resolved server, or hits the
rejected promise and is answered 500 by the outer catch.  Settling flushes
the waiters with the corresponding outcome.  `mcpServerPromise` is never
reset to `null`. -/
def srvStep (s : SrvState) : SrvEvent → SrvState
  | .sseReq =>
    match s.mcp with
    | .unset =>
      { s with mcp := .pending, started := s.started + 1, waiters := s.waiters + 1 }
    | .pending => { s with waiters := s.waiters + 1 }
    | .rOk => { s with responses := s.responses ++ [.connected] }
    | .rFail => { s with responses := s.responses ++ [.err500] }
  | .resolveOk =>
    match s.mcp with
    | .pending =>
      { s with
        mcp := .rOk, waiters := 0,
        responses := s.responses ++ List.replicate s.waiters .connected }
    | _ => s
  | .resolveFail =>
    match s.mcp with
    | .pending =>
      { s with
        mcp := .rFail, waiters := 0,
        responses := s.responses ++ List.replicate s.waiters .err500 }
    | _ => s

/-- Run the SSE-endpoint system over an event trace. -/
def srvRun (s : SrvState) : List SrvEvent → SrvState
  | [] => s
  | e :: es => srvRun (srvStep s e) es

/-- Count of streaming requests in a trace. -/
def countReq : List SrvEvent → Nat
  | [] => 0
  | .sseReq :: es => countReq es + 1
  | _ :: es => countReq es

/-- Events of the transport registry: a streaming connection opens (with the
session id its `SSEServerTransport` carries, or none), or an open connection
closes for any reason (`res.on("close", ...)` fires on every cause). -/
inductive ConnEvent where
  | connect (sid : Option String)
  | disconnect (sid : Option String)

/-- State of the registry system: the multiset of open connections (their
session ids) and the keys of the `sseTransports` map. -/
structure ConnState where
  conns : List (Option String)
  registry : List String

/-- The process-start state: no connections, empty map. -/
def connInit : ConnState := { conns := [], registry := [] }

/-- Model of `Map.set`: the key set gains `s` if absent. -/
def regInsert (r : List String) (s : String) : List String :=
  if s ∈ r then r else r ++ [s]

/-- Model of `Map.delete`: the key is removed. -/
def regDelete (r : List String) (s : String) : List String :=
  r.filter (fun x => x ≠ s)

/-- One step of the registry system.  A connection whose transport carries a
truthy session id is registered, and its close callback deletes that id; a
connection with no (or an empty) id is never registered and has no callback.
A disconnect of a connection that is not open is ignored. -/
def connStep (st : ConnState) : ConnEvent → ConnState
  | .connect sid =>
    match sid with
    | some s =>
      if s = "" then { st with conns := st.conns ++ [sid] }
      else { conns := st.conns ++ [sid], registry := regInsert st.registry s }
    | none => { st with conns := st.conns ++ [sid] }
  | .disconnect sid =>
    if sid ∈ st.conns then
      match sid with
      | some s =>
        if s = "" then { st with conns := st.conns.erase sid }
        else { conns := st.conns.erase sid, registry := regDelete st.registry s }
      | none => { st with conns := st.conns.erase sid }
    else st

/-- Run the registry system over an event trace. -/
def connRun (st : ConnState) : List ConnEvent → ConnState
  | [] => st
  | e :: es => connRun (connStep st e) es

/-! Helper lemmas. -/

theorem splitOnSlash_head_is_pre (l : List Char) :
    ∃ s ss, splitOnSlash l = s :: ss ∧ s <+: l := by
  induction l with
  | nil => exact ⟨[], [], rfl, List.nil_prefix⟩
  | cons c rest ih =>
    obtain ⟨s, ss, hs, hpre⟩ := ih
    by_cases hc : c = '/'
    · exact ⟨[], splitOnSlash rest, by simp [splitOnSlash, hc], List.nil_prefix⟩
    · refine ⟨c :: s, ss, ?_, ?_⟩
      · simp [splitOnSlash, hc, hs]
      · exact List.cons_prefix_cons.mpr ⟨rfl, hpre⟩

theorem mem_splitOnSlash_isInfix (l seg : List Char) (h : seg ∈ splitOnSlash l) :
    seg <:+: l := by
  induction l generalizing seg with
  | nil =>
    simp only [splitOnSlash, List.mem_singleton] at h
    simp [h]
  | cons c rest ih =>
    by_cases hc : c = '/'
    · simp only [splitOnSlash, hc, if_pos] at h
      rcases List.mem_cons.mp h with h1 | h2
      · simp [h1]
      · exact (ih seg h2).trans (List.suffix_cons c rest).isInfix
    · obtain ⟨s, ss, hs, hpre⟩ := splitOnSlash_head_is_pre rest
      simp only [splitOnSlash, hc, if_neg, hs] at h
      rcases List.mem_cons.mp h with h1 | h2
      · subst h1
        exact (List.cons_prefix_cons.mpr ⟨rfl, hpre⟩).isInfix
      · have : seg ∈ splitOnSlash rest := by rw [hs]; exact List.mem_cons_of_mem _ h2
        exact (ih seg this).trans (List.suffix_cons c rest).isInfix

theorem hasDotDotSegment_jsIncludes (p : String)
    (h : hasDotDotSegment p = true) : jsIncludes p ".." = true := by
  have hmem : ['.', '.'] ∈ splitOnSlash p.data := of_decide_eq_true h
  exact decide_eq_true (mem_splitOnSlash_isInfix p.data _ hmem)

/-- Claim C6: a call to `create_game_file` whose `filePath` is a relative path
containing a parent-traversal (`..`) segment returns an `isError:true` result
and leaves the filesystem unchanged: no directory is created and no file is
written. -/
theorem claim_C6_create_game_file_rejects_traversal
    (cwd filePath code : String) (fs : FS)
    (habs : pathIsAbsolute filePath = false)
    (hseg : hasDotDotSegment filePath = true) :
    (createGameFile cwd filePath code fs).1.isError = true ∧
    (createGameFile cwd filePath code fs).2 = fs := by
  have hinc := hasDotDotSegment_jsIncludes filePath hseg
  unfold createGameFile
  rw [habs, hinc]
  simp [errResult, textContent]

/-- Witness for C6 at the spec's example input `../../etc/passwd`. -/
theorem claim_C6_witness :
    pathIsAbsolute "../../etc/passwd" = false ∧
    hasDotDotSegment "../../etc/passwd" = true ∧
    ((createGameFile "/work" "../../etc/passwd" "data" ⟨["/work"], []⟩).1.isError = true ∧
     (createGameFile "/work" "../../etc/passwd" "data" ⟨["/work"], []⟩).2 = ⟨["/work"], []⟩) :=
  ⟨by decide, by decide,
   claim_C6_create_game_file_rejects_traversal "/work" "../../etc/passwd" "data"
     ⟨["/work"], []⟩ (by decide) (by decide)⟩

/-- Counterexample for C7: the relative directory name `..` denotes the
parent directory, which exists (it is in `fs.dirs` here), and every requested
package bears an approved scope, yet the tool returns the traversal error and
never reaches the scope check or the install command, because the
parent-traversal guard rejects the path first.  The claim as stated promises
that every all-approved request on an existing directory proceeds to the
install command. -/
theorem claim_C7_counterexample :
    resolvePath "/work/proj" ".." ∈ (FS.mk ["/work/proj/.."] []).dirs ∧
    (∀ p ∈ ["@akashic/akashic-engine"], approvedScope p = true) ∧
    akashicInstallExtension "/work/proj" ".." ["@akashic/akashic-engine"]
        (FS.mk ["/work/proj/.."] []) =
      .errorResult "Error: Invalid directory name. Avoid .. in relative paths." := by
  decide

/-- Claim C7 (amended): for a call to `akashic_install_extension` whose
`directoryName` passes the traversal guard (absolute, or relative without
`..`) and whose resolved target directory exists, the scope validation
accepts exactly the approved prefixes: any unapproved package name produces
an error result naming the invalid packages and no install command runs;
all-approved names reach the install command. -/
theorem claim_C7_install_extension_scope
    (cwd dirName : String) (packages : List String) (fs : FS)
    (hguard : (!(pathIsAbsolute dirName) && jsIncludes dirName "..") = false)
    (hdir : resolvePath cwd dirName ∈ fs.dirs) :
    ((∃ p ∈ packages, approvedScope p = false) →
      akashicInstallExtension cwd dirName packages fs =
        .errorResult ("Error: Invalid package scope: " ++
          joinSep ", " (packages.filter (fun n => !(approvedScope n))))) ∧
    ((∀ p ∈ packages, approvedScope p = true) →
      akashicInstallExtension cwd dirName packages fs =
        .runInstall ("cd " ++ quoteArg (resolvePath cwd dirName) ++
          " && akashic install " ++ joinSep " " (packages.map quoteArg))) := by
  constructor
  · rintro ⟨p, hp, hbad⟩
    have hmem : p ∈ packages.filter (fun n => !(approvedScope n)) :=
      List.mem_filter.mpr ⟨hp, by simp [hbad]⟩
    have hlen : 0 < (packages.filter (fun n => !(approvedScope n))).length :=
      List.length_pos.mpr (List.ne_nil_of_mem hmem)
    unfold akashicInstallExtension
    rw [hguard]
    simp only [Bool.false_eq_true, if_false, if_pos hdir, if_pos hlen]
  · intro hall
    have hnil : packages.filter (fun n => !(approvedScope n)) = [] :=
      List.filter_eq_nil_iff.mpr (fun a ha => by simp [hall a ha])
    unfold akashicInstallExtension
    rw [hguard]
    simp only [Bool.false_eq_true, if_false, if_pos hdir, hnil]
    simp

/-- Witness for C7: one rejected mixed request, one accepted request. -/
theorem claim_C7_witness :
    (akashicInstallExtension "/w" "proj" ["@akashic-extension/akashic-label", "left-pad"]
        ⟨["/w/proj"], []⟩ =
      .errorResult "Error: Invalid package scope: left-pad") ∧
    (akashicInstallExtension "/w" "proj" ["@akashic/akashic-engine"]
        ⟨["/w/proj"], []⟩ =
      .runInstall "cd \"/w/proj\" && akashic install \"@akashic/akashic-engine\"") := by
  constructor
  · have h := (claim_C7_install_extension_scope "/w" "proj"
      ["@akashic-extension/akashic-label", "left-pad"] ⟨["/w/proj"], []⟩
      (by decide) (by decide)).1 ⟨"left-pad", by decide, by decide⟩
    rw [h]; decide
  · have h := (claim_C7_install_extension_scope "/w" "proj"
      ["@akashic/akashic-engine"] ⟨["/w/proj"], []⟩
      (by decide) (by decide)).2 (by decide)
    rw [h]; decide

/-- Claim C2: the message endpoint resolves the session id header-first with
the two query-parameter names as fallback; a missing id gets the 400
Missing-sessionId JSON error, an id with no registered transport gets the 404
Unknown-sessionId JSON error, and a registered id is delegated to its
transport (never a silent no-op). -/
theorem claim_C2_message_endpoint_routing
    (h : HeaderVal) (q1 q2 : Option String) (registry : List String) :
    (∀ s, jsTrim s ≠ "" → getSessionId (.strV s) q1 q2 = some (jsTrim s)) ∧
    (getSessionId .absent q1 q2 = getSessionQuery q1 q2) ∧
    ((getSessionId h q1 q2 = none ∨ getSessionId h q1 q2 = some "") →
      handleMessage h q1 q2 registry =
        .response (.jsonErr 400 "Missing sessionId.")) ∧
    (∀ s, getSessionId h q1 q2 = some s → s ≠ "" → s ∉ registry →
      handleMessage h q1 q2 registry =
        .response (.jsonErr 404 "Unknown sessionId.")) ∧
    (∀ s, getSessionId h q1 q2 = some s → s ≠ "" → s ∈ registry →
      handleMessage h q1 q2 registry = .delegated s) := by
  refine ⟨?_, rfl, ?_, ?_, ?_⟩
  · intro s hs
    simp [getSessionId, hs]
  · rintro (hnone | hempty)
    · simp [handleMessage, hnone]
    · simp [handleMessage, hempty]
  · intro s hs hne hnot
    simp [handleMessage, hs, hne, hnot]
  · intro s hs hne hmem
    simp [handleMessage, hs, hne, hmem]

/-- Witness for C2: a trimmed header id, a missing id, an unknown id and a
registered id at concrete inputs. -/
theorem claim_C2_witness :
    getSessionId (.strV "  abc ") (some "q") none = some "abc" ∧
    handleMessage .absent none none ["abc"] =
      .response (.jsonErr 400 "Missing sessionId.") ∧
    handleMessage (.strV "zzz") none none ["abc"] =
      .response (.jsonErr 404 "Unknown sessionId.") ∧
    handleMessage (.strV "abc") none none ["abc"] = .delegated "abc" := by
  refine ⟨?_, ?_, ?_, ?_⟩
  · have h := (claim_C2_message_endpoint_routing (.strV "  abc ") (some "q")
      none []).1 "  abc " (by decide)
    rw [h]; decide
  · exact (claim_C2_message_endpoint_routing .absent none none ["abc"]).2.2.1
      (Or.inl (by decide))
  · exact (claim_C2_message_endpoint_routing (.strV "zzz") none none
      ["abc"]).2.2.2.1 "zzz" (by decide) (by decide) (by decide)
  · exact (claim_C2_message_endpoint_routing (.strV "abc") none none
      ["abc"]).2.2.2.2 "abc" (by decide) (by decide) (by decide)

/-- Counterexample for C4: the empty request body does not parse as JSON
(`JSON.parse("")` throws), yet the handler answers it with the
Missing-tool-name error, not the Invalid-JSON-body error: `readJsonBody`
returns `null` for an empty raw body before any parse is attempted (the
`parse` argument is therefore irrelevant to this input; it is instantiated
with the everywhere-failing parse, under which the empty string indeed does
not parse). -/
theorem claim_C4_counterexample :
    handleProxyCall (fun _ => none) (searchCallTool []) "" =
      .jsonErr 400 "Missing tool name." ∧
    HttpResp.jsonErr 400 "Missing tool name." ≠
      HttpResp.jsonErr 400 "Invalid JSON body." := by
  exact ⟨rfl, by decide⟩

/-- Claim C4 (amended): a NONEMPTY body that does not parse as JSON yields
400 Invalid-JSON-body; an empty body — or a parsed body whose `name` field is
absent or not a string, or a falsy parsed body — yields 400
Missing-tool-name; otherwise the call is forwarded and the tool result is
returned with HTTP status 200 for every possible result, in particular when
it carries `isError:true` (the quantification over `ct` covers the
unregistered-tool result of the MCP client). -/
theorem claim_C4_proxy_call_amended
    (parse : String → Option JVal) (ct : String → JVal → ToolResult)
    (raw : String) :
    (raw ≠ "" → parse raw = none →
      handleProxyCall parse ct raw = .jsonErr 400 "Invalid JSON body.") ∧
    (handleProxyCall parse ct "" = .jsonErr 400 "Missing tool name.") ∧
    (∀ j, raw ≠ "" → parse raw = some j →
      (jsTruthy j = false ∨ nameField j = none) →
      handleProxyCall parse ct raw = .jsonErr 400 "Missing tool name.") ∧
    (∀ j nm, raw ≠ "" → parse raw = some j → jsTruthy j = true →
      nameField j = some nm →
      handleProxyCall parse ct raw =
        .jsonResult 200 (ct nm (argsField j))) := by
  refine ⟨?_, rfl, ?_, ?_⟩
  · intro hraw hp
    simp [handleProxyCall, readJsonBody, hraw, hp]
  · rintro j hraw hp (hfalsy | hnoname)
    · simp [handleProxyCall, readJsonBody, hraw, hp, hfalsy]
    · cases htr : jsTruthy j <;>
        simp [handleProxyCall, readJsonBody, hraw, hp, htr, hnoname]
  · intro j nm hraw hp htr hname
    simp [handleProxyCall, readJsonBody, hraw, hp, htr, hname]

/-- Witness for C4 (amended): a nonempty unparsable body gets the
Invalid-JSON error, and a call naming an unregistered tool gets HTTP 200
carrying an `isError:true` result. -/
theorem claim_C4_witness :
    handleProxyCall (fun _ => none) (searchCallTool []) "not json" =
      .jsonErr 400 "Invalid JSON body." ∧
    handleProxyCall (fun _ => some (.obj [("name", .str "nonexistent_tool")]))
        (searchCallTool []) "x" =
      .jsonResult 200 (errResult "Unknown tool: nonexistent_tool") ∧
    (errResult "Unknown tool: nonexistent_tool").isError = true := by
  refine ⟨?_, ?_, by decide⟩
  · exact (claim_C4_proxy_call_amended (fun _ => none) (searchCallTool [])
      "not json").1 (by decide) rfl
  · have h := (claim_C4_proxy_call_amended
      (fun _ => some (.obj [("name", .str "nonexistent_tool")]))
      (searchCallTool []) "x").2.2.2 (.obj [("name", .str "nonexistent_tool")])
      "nonexistent_tool" (by decide) rfl rfl rfl
    rw [h]; decide

/-- Claim C8: a `POST /proxy/call` frame calling `search_akashic_docs`
against the empty document corpus is answered with HTTP status 200 and a
single text content block that is exactly `No relevant documents found.`,
for every query string. -/
theorem claim_C8_search_empty_corpus
    (parse : String → Option JVal) (raw q : String) (body : JVal)
    (hraw : raw ≠ "") (hp : parse raw = some body)
    (htruthy : jsTruthy body = true)
    (hname : nameField body = some "search_akashic_docs")
    (hquery : getField (argsField body) "query" = some (.str q)) :
    handleProxyCall parse (searchCallTool []) raw =
      .jsonResult 200 (okResult "No relevant documents found.") ∧
    searchAkashicDocs [] q = okResult "No relevant documents found." := by
  refine ⟨?_, rfl⟩
  simp [handleProxyCall, readJsonBody, hraw, hp, htruthy, hname,
    searchCallTool, hquery]
  rfl

/-- Witness for C8 at the spec's query `nonexistent-keyword-xyz`. -/
theorem claim_C8_witness :
    handleProxyCall
        (fun _ => some (.obj [("name", .str "search_akashic_docs"),
          ("arguments", .obj [("query", .str "nonexistent-keyword-xyz")])]))
        (searchCallTool []) "x" =
      .jsonResult 200 (okResult "No relevant documents found.") :=
  (claim_C8_search_empty_corpus
    (fun _ => some (.obj [("name", .str "search_akashic_docs"),
      ("arguments", .obj [("query", .str "nonexistent-keyword-xyz")])]))
    "x" "nonexistent-keyword-xyz" _ (by decide) rfl rfl rfl rfl).1

/-- Claim C10: for every corpus and query, `search_akashic_docs` aggregates
at most 3 matching documents (a match is a case-insensitive substring hit on
title or content, with the code's non-empty-field guard), and each included
document contributes its content truncated to the first 500 characters. -/
theorem claim_C10_search_result_bounds (docs : List Doc) (query : String) :
    (searchResults docs query).length ≤ 3 ∧
    (∀ r ∈ searchResults docs query, ∃ d, d ∈ docs ∧
      docMatches (jsToLower query) d = true ∧
      r = "Title: " ++ d.title ++ "\nURL: " ++ d.url ++ "\n\n" ++
        jsSubstring d.content 500 ++ "...") ∧
    (∀ d : Doc, (jsSubstring d.content 500).length ≤ 500) := by
  refine ⟨?_, ?_, ?_⟩
  · simp only [searchResults, List.length_map]
    exact List.length_take_le 3 (docs.filter (docMatches (jsToLower query)))
  · intro r hr
    obtain ⟨d, hd, rfl⟩ := List.mem_map.mp hr
    have hd2 := List.mem_of_mem_take hd
    rw [List.mem_filter] at hd2
    exact ⟨d, hd2.1, hd2.2, rfl⟩
  · intro d
    exact List.length_take_le 500 d.content.data

/-- Witness for C10 at a one-document corpus with a case-insensitive hit. -/
theorem claim_C10_witness :
    (searchResults [⟨"g.Sprite", "https://e", "c"⟩] "Sprite").length ≤ 3 ∧
    (∃ d, d ∈ [(⟨"g.Sprite", "https://e", "c"⟩ : Doc)] ∧
      docMatches (jsToLower "Sprite") d = true ∧
      formatDoc ⟨"g.Sprite", "https://e", "c"⟩ =
        "Title: " ++ d.title ++ "\nURL: " ++ d.url ++ "\n\n" ++
          jsSubstring d.content 500 ++ "...") :=
  ⟨(claim_C10_search_result_bounds [⟨"g.Sprite", "https://e", "c"⟩] "Sprite").1,
   (claim_C10_search_result_bounds [⟨"g.Sprite", "https://e", "c"⟩]
      "Sprite").2.1 (formatDoc ⟨"g.Sprite", "https://e", "c"⟩) (by decide)⟩

theorem takeWhile_append_newline (l r : List Char) (h : ∀ c ∈ l, c ≠ '\n') :
    (l ++ '\n' :: r).takeWhile (· ≠ '\n') = l := by
  induction l with
  | nil => simp [List.takeWhile_cons]
  | cons c cs ih =>
    have hc : c ≠ '\n' := h c (by simp)
    rw [List.cons_append, List.takeWhile_cons, if_pos (by simp [hc]),
      ih (fun x hx => h x (by simp [hx]))]

theorem getFile_setFile (files : List (String × String)) (p c : String) :
    getFile (setFile files p c) p = some c := by
  induction files with
  | nil => simp [setFile, getFile]
  | cons kv rest ih =>
    obtain ⟨k, v⟩ := kv
    by_cases hk : k = p
    · simp [setFile, getFile, hk]
    · simp [setFile, getFile, hk, ih]

theorem firstLine_joinSep_readme (title : String) (rest : List String)
    (htitle : ∀ c ∈ title.data, c ≠ '\n') :
    firstLine (joinSep "\n" (("# " ++ title) :: rest) ++ "\n") = "# " ++ title := by
  have hall : ∀ c ∈ ("# " ++ title).data, c ≠ '\n' := by
    intro c hc
    rw [String.data_append] at hc
    rcases List.mem_append.mp hc with h1 | h2
    · fin_cases h1 <;> decide
    · exact htitle c h2
  cases rest with
  | nil =>
    show firstLine (("# " ++ title) ++ "\n") = "# " ++ title
    unfold firstLine
    rw [show (("# " ++ title) ++ "\n").data =
        ("# " ++ title).data ++ '\n' :: [] from by simp [String.data_append]]
    rw [takeWhile_append_newline _ _ hall]
  | cons y ys =>
    show firstLine ((("# " ++ title) ++ "\n" ++ joinSep "\n" (y :: ys)) ++ "\n") =
      "# " ++ title
    unfold firstLine
    rw [show ((("# " ++ title) ++ "\n" ++ joinSep "\n" (y :: ys)) ++ "\n").data =
        ("# " ++ title).data ++
          '\n' :: ((joinSep "\n" (y :: ys)).data ++ ['\n']) from by
      simp [String.data_append]]
    rw [takeWhile_append_newline _ _ hall]

/-- Counterexample for C9: the relative directory name `..` denotes the
parent directory, which exists (it is in `fs.dirs` here), yet the tool
returns an `isError:true` result and writes nothing, because the
parent-traversal guard rejects the path before the directory is consulted.
The claim as stated promises a success result and a README for every call
whose target directory exists. -/
theorem claim_C9_counterexample :
    resolvePath "/work/proj" ".." ∈ (FS.mk ["/work/proj/.."] []).dirs ∧
    (writeProjectReadme "/work/proj" ".." "Title" "Summary" [] [] [] none
      (FS.mk ["/work/proj/.."] [])).1.isError = true ∧
    (writeProjectReadme "/work/proj" ".." "Title" "Summary" [] [] [] none
      (FS.mk ["/work/proj/.."] [])).2.files = [] := by
  decide

/-- Claim C9 (amended): for every call to `write_project_readme` whose
`directoryName` passes the traversal guard (absolute, or relative without
`..`), whose resolved target directory exists, and whose title contains no
newline, the tool returns the success result and writes `README.md` in the
target directory with first line exactly `# ` followed by the title. -/
theorem claim_C9_write_readme_amended
    (cwd dirName title summary : String)
    (features controls rules : List String) (runtime : Option String) (fs : FS)
    (hguard : (!(pathIsAbsolute dirName) && jsIncludes dirName "..") = false)
    (hdir : resolvePath cwd dirName ∈ fs.dirs)
    (htitle : ∀ c ∈ title.data, c ≠ '\n') :
    (writeProjectReadme cwd dirName title summary features controls rules
      runtime fs).1 = okResult "README.md written successfully." ∧
    getFile (writeProjectReadme cwd dirName title summary features controls
        rules runtime fs).2.files (resolvePath cwd dirName ++ "/README.md") =
      some (joinSep "\n"
        (readmeLines title summary features controls rules runtime) ++ "\n") ∧
    firstLine (joinSep "\n"
        (readmeLines title summary features controls rules runtime) ++ "\n") =
      "# " ++ title := by
  refine ⟨?_, ?_, ?_⟩
  · unfold writeProjectReadme
    rw [hguard]
    simp [hdir]
  · unfold writeProjectReadme
    rw [hguard]
    simp only [Bool.false_eq_true, if_false, if_pos hdir]
    exact getFile_setFile fs.files _ _
  · exact firstLine_joinSep_readme title _ htitle

/-- Witness for C9 (amended) at a concrete project and title. -/
theorem claim_C9_witness :
    (writeProjectReadme "/w" "proj" "My Game" "Fun." [] [] [] none
      (FS.mk ["/w/proj"] [])).1 = okResult "README.md written successfully." ∧
    getFile (writeProjectReadme "/w" "proj" "My Game" "Fun." [] [] [] none
        (FS.mk ["/w/proj"] [])).2.files (resolvePath "/w" "proj" ++ "/README.md") =
      some (joinSep "\n" (readmeLines "My Game" "Fun." [] [] [] none) ++ "\n") ∧
    firstLine (joinSep "\n" (readmeLines "My Game" "Fun." [] [] [] none) ++ "\n") =
      "# " ++ "My Game" :=
  claim_C9_write_readme_amended "/w" "proj" "My Game" "Fun." [] [] [] none
    (FS.mk ["/w/proj"] []) (by decide) (by decide) (by decide)

/-- Invariant of the `getProxyClient` system: a cached client and an in-flight
promise never coexist, and every construction id in the state is in the range
of ids handed out so far. -/
def pcInv (s : PCState) : Prop :=
  (∀ c, s.client = some c → s.promise = none) ∧
  (∀ p, s.promise = some p → p < s.nextCon) ∧
  (∀ c, s.client = some c → c < s.nextCon)

theorem pcInv_init : pcInv pcInit := by
  refine ⟨?_, ?_, ?_⟩ <;> intro x hx <;> simp [pcInit] at hx

theorem pcInv_step (s : PCState) (e : PCEvent) (h : pcInv s) :
    pcInv (pcStep s e) := by
  obtain ⟨h1, h2, h3⟩ := h
  cases e with
  | call =>
    cases hc : s.client with
    | some c => simp [pcStep, pcCall, hc]; exact ⟨h1, h2, h3⟩
    | none =>
      cases hp : s.promise with
      | some p => simp [pcStep, pcCall, hc, hp]; exact ⟨h1, h2, h3⟩
      | none =>
        refine ⟨?_, ?_, ?_⟩
        · intro c hcx
          simp [pcStep, pcCall, hc, hp] at hcx
        · intro p hpx
          simp [pcStep, pcCall, hc, hp] at hpx ⊢
          omega
        · intro c hcx
          simp [pcStep, pcCall, hc, hp] at hcx
  | resolveOk =>
    cases hp : s.promise with
    | some p =>
      refine ⟨?_, ?_, ?_⟩
      · intro c hcx
        simp [pcStep, hp]
      · intro q hqx
        simp [pcStep, hp] at hqx
      · intro c hcx
        simp [pcStep, hp] at hcx ⊢
        have := h2 p hp
        omega
    | none => simpa [pcStep, hp] using ⟨h1, h2, h3⟩
  | resolveFail =>
    refine ⟨?_, ?_, ?_⟩
    · intro c hcx
      simp [pcStep]
    · intro p hpx
      simp [pcStep] at hpx
    · intro c hcx
      simp [pcStep] at hcx ⊢
      exact h3 c hcx

theorem pcInv_run (tr : List PCEvent) (s : PCState) (h : pcInv s) :
    pcInv (pcRun s tr) := by
  induction tr generalizing s with
  | nil => exact h
  | cons e es ih => exact ih (pcStep s e) (pcInv_step s e h)

theorem pcStep_ready_fixed (s : PCState) (e : PCEvent) (c : Nat)
    (hc : s.client = some c) (hp : s.promise = none) : pcStep s e = s := by
  obtain ⟨cl, pr, n⟩ := s
  simp only at hc hp
  subst hc; subst hp
  cases e <;> simp [pcStep, pcCall]

theorem pcRun_ready_fixed (tr : List PCEvent) (s : PCState) (c : Nat)
    (hc : s.client = some c) (hp : s.promise = none) : pcRun s tr = s := by
  induction tr with
  | nil => rfl
  | cons e es ih => rw [pcRun, pcStep_ready_fixed s e c hc hp, ih]

theorem pc_props (s : PCState) (hinv : pcInv s) :
    (∀ p, s.client = none → s.promise = some p →
      pcCall s = (s, .awaitCon p)) ∧
    (∀ p, s.promise = some p →
      (pcStep s .resolveFail).promise = none ∧
      (s.client = none →
        pcCall (pcStep s .resolveFail) =
          ({ client := none, promise := some s.nextCon,
             nextCon := s.nextCon + 1 }, .awaitCon s.nextCon) ∧
        s.nextCon ≠ p)) ∧
    (∀ c, s.client = some c →
      pcCall s = (s, .cached c) ∧
      ∀ tr2, (pcRun s tr2).client = some c) := by
  obtain ⟨h1, h2, h3⟩ := hinv
  refine ⟨?_, ?_, ?_⟩
  · intro p hc hp
    simp [pcCall, hc, hp]
  · intro p hp
    refine ⟨by simp [pcStep], ?_⟩
    intro hc
    obtain ⟨cl, pr, n⟩ := s
    simp only at hc hp
    subst hc; subst hp
    exact ⟨by simp [pcStep, pcCall], fun hne => absurd (h2 p rfl) (by omega)⟩
  · intro c hc
    have hp : s.promise = none := h1 c hc
    exact ⟨by simp [pcCall, hc],
      fun tr2 => by rw [pcRun_ready_fixed tr2 s c hc hp]; exact hc⟩

/-- Claim C1: along every event trace of `getProxyClient`, a first-time call
arriving while a construction is in flight awaits that same construction;
after a failed construction the in-flight state is cleared and the next
first-time call begins a construction with a fresh id (failure never poisons
the singleton); and once a client is cached every subsequent call returns it
and no sequence of events ever clears it. -/
theorem claim_C1_proxy_client_single_flight (tr : List PCEvent) :
    (∀ p, (pcRun pcInit tr).client = none →
      (pcRun pcInit tr).promise = some p →
      pcCall (pcRun pcInit tr) = (pcRun pcInit tr, .awaitCon p)) ∧
    (∀ p, (pcRun pcInit tr).promise = some p →
      (pcStep (pcRun pcInit tr) .resolveFail).promise = none ∧
      ((pcRun pcInit tr).client = none →
        pcCall (pcStep (pcRun pcInit tr) .resolveFail) =
          ({ client := none, promise := some (pcRun pcInit tr).nextCon,
             nextCon := (pcRun pcInit tr).nextCon + 1 },
           .awaitCon (pcRun pcInit tr).nextCon) ∧
        (pcRun pcInit tr).nextCon ≠ p)) ∧
    (∀ c, (pcRun pcInit tr).client = some c →
      pcCall (pcRun pcInit tr) = (pcRun pcInit tr, .cached c) ∧
      ∀ tr2, (pcRun (pcRun pcInit tr) tr2).client = some c) :=
  pc_props (pcRun pcInit tr) (pcInv_run tr pcInit pcInv_init)

/-- Witness for C1: a failed first construction, a retry that reaches Ready,
then calls served from the cache along a concrete trace. -/
theorem claim_C1_witness :
    (pcRun pcInit [.call]).client = none ∧
    (pcRun pcInit [.call]).promise = some 0 ∧
    pcCall (pcRun pcInit [.call]) = (pcRun pcInit [.call], .awaitCon 0) ∧
    (pcStep (pcRun pcInit [.call]) .resolveFail).promise = none ∧
    (pcRun pcInit [.call, .resolveFail, .call, .resolveOk]).client = some 1 ∧
    pcCall (pcRun pcInit [.call, .resolveFail, .call, .resolveOk]) =
      (pcRun pcInit [.call, .resolveFail, .call, .resolveOk], .cached 1) ∧
    (pcRun (pcRun pcInit [.call, .resolveFail, .call, .resolveOk])
      [.call, .resolveFail, .call]).client = some 1 := by
  refine ⟨by decide, by decide, ?_, ?_, by decide, ?_, ?_⟩
  · exact (claim_C1_proxy_client_single_flight [.call]).1 0 (by decide) (by decide)
  · exact ((claim_C1_proxy_client_single_flight [.call]).2.1 0 (by decide)).1
  · exact ((claim_C1_proxy_client_single_flight
      [.call, .resolveFail, .call, .resolveOk]).2.2 1 (by decide)).1
  · exact ((claim_C1_proxy_client_single_flight
      [.call, .resolveFail, .call, .resolveOk]).2.2 1 (by decide)).2
      [.call, .resolveFail, .call]

/-- Invariant of the SSE-endpoint system: `createMcpServer()` has run at most
once, and not at all while `mcpServerPromise` is still `null`. -/
def srvInv (s : SrvState) : Prop :=
  (s.mcp = .unset → s.started = 0) ∧ s.started ≤ 1

theorem srvInv_init : srvInv srvInit := ⟨fun _ => rfl, by simp [srvInit]⟩

theorem srvInv_step (s : SrvState) (e : SrvEvent) (h : srvInv s) :
    srvInv (srvStep s e) := by
  obtain ⟨h1, h2⟩ := h
  cases e with
  | sseReq =>
    cases hm : s.mcp with
    | unset =>
      have h0 := h1 hm
      constructor
      · intro hx
        simp [srvStep, hm] at hx
      · simp [srvStep, hm]
        omega
    | pending =>
      exact ⟨fun hx => by simp [srvStep, hm] at hx, by
        simpa [srvStep, hm] using h2⟩
    | rOk =>
      exact ⟨fun hx => by simp [srvStep, hm] at hx, by
        simpa [srvStep, hm] using h2⟩
    | rFail =>
      exact ⟨fun hx => by simp [srvStep, hm] at hx, by
        simpa [srvStep, hm] using h2⟩
  | resolveOk =>
    cases hm : s.mcp with
    | pending =>
      constructor
      · intro hx
        simp [srvStep, hm] at hx
      · simpa [srvStep, hm] using h2
    | unset => simpa [srvStep, hm] using ⟨h1, h2⟩
    | rOk => simpa [srvStep, hm] using ⟨h1, h2⟩
    | rFail => simpa [srvStep, hm] using ⟨h1, h2⟩
  | resolveFail =>
    cases hm : s.mcp with
    | pending =>
      constructor
      · intro hx
        simp [srvStep, hm] at hx
      · simpa [srvStep, hm] using h2
    | unset => simpa [srvStep, hm] using ⟨h1, h2⟩
    | rOk => simpa [srvStep, hm] using ⟨h1, h2⟩
    | rFail => simpa [srvStep, hm] using ⟨h1, h2⟩

theorem srvInv_run (tr : List SrvEvent) (s : SrvState) (h : srvInv s) :
    srvInv (srvRun s tr) := by
  induction tr generalizing s with
  | nil => exact h
  | cons e es ih => exact ih (srvStep s e) (srvInv_step s e h)

theorem srv_accounting (tr : List SrvEvent) (s : SrvState) :
    (srvRun s tr).responses.length + (srvRun s tr).waiters =
      s.responses.length + s.waiters + countReq tr := by
  induction tr generalizing s with
  | nil => simp [srvRun, countReq]
  | cons e es ih =>
    rw [srvRun, ih (srvStep s e)]
    cases e with
    | sseReq =>
      cases hm : s.mcp <;> simp [srvStep, hm, countReq] <;> try omega
    | resolveOk =>
      cases hm : s.mcp <;> simp [srvStep, hm, countReq]
    | resolveFail =>
      cases hm : s.mcp <;> simp [srvStep, hm, countReq]

/-- Claim C3: along every event trace of the SSE endpoint, `createMcpServer`
runs at most once per process; a request arriving once construction has begun
never starts another; after a failed construction every arriving request is
answered with the outer catch's 500 while the server keeps running; and every
streaming request in the trace is accounted a response or is still awaiting —
none crashes the process. -/
theorem claim_C3_mcp_server_single_construction (tr : List SrvEvent) :
    (srvRun srvInit tr).started ≤ 1 ∧
    ((srvRun srvInit tr).mcp ≠ .unset →
      (srvStep (srvRun srvInit tr) .sseReq).started =
        (srvRun srvInit tr).started) ∧
    ((srvRun srvInit tr).mcp = .rFail →
      srvStep (srvRun srvInit tr) .sseReq =
        { srvRun srvInit tr with
          responses := (srvRun srvInit tr).responses ++ [.err500] }) ∧
    ((srvRun srvInit tr).responses.length + (srvRun srvInit tr).waiters =
      countReq tr) := by
  refine ⟨(srvInv_run tr srvInit srvInv_init).2, ?_, ?_, ?_⟩
  · intro hne
    cases hm : (srvRun srvInit tr).mcp with
    | unset => exact absurd hm hne
    | pending => simp [srvStep, hm]
    | rOk => simp [srvStep, hm]
    | rFail => simp [srvStep, hm]
  · intro hm
    simp [srvStep, hm]
  · simpa [srvInit] using srv_accounting tr srvInit

/-- Witness for C3: a concrete trace with a failed construction followed by
more requests, all answered 500 while `started` stays 1. -/
theorem claim_C3_witness :
    (srvRun srvInit [.sseReq, .sseReq, .resolveFail, .sseReq]).started ≤ 1 ∧
    (srvRun srvInit [.sseReq, .sseReq, .resolveFail, .sseReq]).mcp = .rFail ∧
    (srvStep (srvRun srvInit [.sseReq, .sseReq, .resolveFail, .sseReq]) .sseReq).started =
      (srvRun srvInit [.sseReq, .sseReq, .resolveFail, .sseReq]).started ∧
    (srvRun srvInit [.sseReq, .sseReq, .resolveFail, .sseReq]).responses =
      [.err500, .err500, .err500] ∧
    ((srvRun srvInit [.sseReq, .sseReq, .resolveFail, .sseReq]).responses.length +
      (srvRun srvInit [.sseReq, .sseReq, .resolveFail, .sseReq]).waiters =
      countReq [.sseReq, .sseReq, .resolveFail, .sseReq]) := by
  refine ⟨(claim_C3_mcp_server_single_construction _).1, by decide, ?_, by decide,
    (claim_C3_mcp_server_single_construction _).2.2.2⟩
  exact (claim_C3_mcp_server_single_construction
    [.sseReq, .sseReq, .resolveFail, .sseReq]).2.1 (by decide)

/-- Invariant of the registry system: every registered session id belongs to
an open connection, is non-empty, and the key set has no duplicates. -/
def connInv (st : ConnState) : Prop :=
  (∀ s ∈ st.registry, some s ∈ st.conns) ∧
  (∀ s ∈ st.registry, s ≠ "") ∧
  st.registry.Nodup

theorem connInv_init : connInv connInit := by
  refine ⟨?_, ?_, ?_⟩ <;> simp [connInit]

theorem connInv_step (st : ConnState) (e : ConnEvent) (h : connInv st) :
    connInv (connStep st e) := by
  obtain ⟨h1, h2, h3⟩ := h
  cases e with
  | connect sid =>
    cases sid with
    | some s =>
      by_cases hs : s = ""
      · simp only [connStep, if_pos hs]
        exact ⟨fun x hx => List.mem_append_left _ (h1 x hx), h2, h3⟩
      · simp only [connStep, if_neg hs]
        refine ⟨?_, ?_, ?_⟩
        · intro x hx
          unfold regInsert at hx
          by_cases hmem : s ∈ st.registry
          · rw [if_pos hmem] at hx
            exact List.mem_append_left _ (h1 x hx)
          · rw [if_neg hmem] at hx
            rcases List.mem_append.mp hx with hx1 | hx2
            · exact List.mem_append_left _ (h1 x hx1)
            · rw [List.mem_singleton] at hx2
              subst hx2
              exact List.mem_append_right _ (by simp)
        · intro x hx
          unfold regInsert at hx
          by_cases hmem : s ∈ st.registry
          · rw [if_pos hmem] at hx
            exact h2 x hx
          · rw [if_neg hmem] at hx
            rcases List.mem_append.mp hx with hx1 | hx2
            · exact h2 x hx1
            · rw [List.mem_singleton] at hx2
              subst hx2
              exact hs
        · unfold regInsert
          by_cases hmem : s ∈ st.registry
          · rw [if_pos hmem]; exact h3
          · rw [if_neg hmem]
            simp [List.nodup_append, h3, hmem]
    | none =>
      simp only [connStep]
      exact ⟨fun x hx => List.mem_append_left _ (h1 x hx), h2, h3⟩
  | disconnect sid =>
    by_cases hmem : sid ∈ st.conns
    · cases sid with
      | some s =>
        by_cases hs : s = ""
        · simp only [connStep, if_pos hmem, if_pos hs]
          refine ⟨?_, h2, h3⟩
          intro x hx
          have hne : (some x : Option String) ≠ some s := by
            simp [hs, h2 x hx]
          exact (List.mem_erase_of_ne hne).mpr (h1 x hx)
        · simp only [connStep, if_pos hmem, if_neg hs]
          refine ⟨?_, ?_, ?_⟩
          · intro x hx
            unfold regDelete at hx
            rw [List.mem_filter] at hx
            have hxs : x ≠ s := of_decide_eq_true hx.2
            have hne : (some x : Option String) ≠ some s := by simp [hxs]
            exact (List.mem_erase_of_ne hne).mpr (h1 x hx.1)
          · intro x hx
            unfold regDelete at hx
            rw [List.mem_filter] at hx
            exact h2 x hx.1
          · exact h3.filter _
      | none =>
        simp only [connStep, if_pos hmem]
        refine ⟨?_, h2, h3⟩
        intro x hx
        exact (List.mem_erase_of_ne (by simp)).mpr (h1 x hx)
    · simp only [connStep, if_neg hmem]
      exact ⟨h1, h2, h3⟩

theorem connInv_run (tr : List ConnEvent) (st : ConnState) (h : connInv st) :
    connInv (connRun st tr) := by
  induction tr generalizing st with
  | nil => exact h
  | cons e es ih => exact ih (connStep st e) (connInv_step st e h)

theorem conn_disconnect_removes (st : ConnState) (h : connInv st) (s : String) :
    s ∉ (connStep st (.disconnect (some s))).registry := by
  obtain ⟨h1, h2, h3⟩ := h
  by_cases hreg : s ∈ st.registry
  · have hs : s ≠ "" := h2 s hreg
    have hmem : (some s : Option String) ∈ st.conns := h1 s hreg
    simp only [connStep, if_pos hmem, if_neg hs]
    unfold regDelete
    intro hx
    rw [List.mem_filter] at hx
    exact (of_decide_eq_true hx.2) rfl
  · intro hx
    apply hreg
    by_cases hmem : (some s : Option String) ∈ st.conns
    · by_cases hs : s = ""
      · simpa [connStep, if_pos hmem, if_pos hs] using hx
      · simp only [connStep, if_pos hmem, if_neg hs] at hx
        unfold regDelete at hx
        rw [List.mem_filter] at hx
        exact hx.1
    · simpa [connStep, if_neg hmem] using hx

theorem conn_registry_bounded (st : ConnState) (h : connInv st) :
    st.registry.length ≤ st.conns.length := by
  obtain ⟨h1, _, h3⟩ := h
  have hsub : st.registry.map some ⊆ st.conns := by
    intro x hx
    obtain ⟨y, hy, rfl⟩ := List.mem_map.mp hx
    exact h1 y hy
  have hnodup : (st.registry.map some).Nodup := h3.map (Option.some_injective _)
  have := List.Subperm.length_le (List.subperm_of_subset hnodup hsub)
  simpa using this

/-- Claim C5: along every connect/disconnect trace, every id in the transport
registry belongs to a still-open connection; processing the close of a
connection with id `s` always leaves `s` unregistered, whatever the cause of
the close; and the registry never outgrows the set of open connections. -/
theorem claim_C5_registry_cleanup (tr : List ConnEvent) :
    (∀ s ∈ (connRun connInit tr).registry, some s ∈ (connRun connInit tr).conns) ∧
    (∀ s : String,
      s ∉ (connStep (connRun connInit tr) (.disconnect (some s))).registry) ∧
    (connRun connInit tr).registry.length ≤ (connRun connInit tr).conns.length := by
  have hinv := connInv_run tr connInit connInv_init
  exact ⟨hinv.1, conn_disconnect_removes _ hinv, conn_registry_bounded _ hinv⟩

/-- Witness for C5: a concrete trace with two sessions, one closed. -/
theorem claim_C5_witness :
    (connRun connInit [.connect (some "a"), .connect (some "b"),
      .disconnect (some "a")]).registry = ["b"] ∧
    (some "b" : Option String) ∈ (connRun connInit [.connect (some "a"),
      .connect (some "b"), .disconnect (some "a")]).conns ∧
    "a" ∉ (connStep (connRun connInit [.connect (some "a"), .connect (some "b"),
      .disconnect (some "a")]) (.disconnect (some "a"))).registry ∧
    (connRun connInit [.connect (some "a"), .connect (some "b"),
      .disconnect (some "a")]).registry.length ≤
      (connRun connInit [.connect (some "a"), .connect (some "b"),
        .disconnect (some "a")]).conns.length := by
  refine ⟨by decide, ?_, ?_, ?_⟩
  · exact (claim_C5_registry_cleanup [.connect (some "a"), .connect (some "b"),
      .disconnect (some "a")]).1 "b" (by decide)
  · exact (claim_C5_registry_cleanup [.connect (some "a"), .connect (some "b"),
      .disconnect (some "a")]).2.1 "a"
  · exact (claim_C5_registry_cleanup [.connect (some "a"), .connect (some "b"),
      .disconnect (some "a")]).2.2

end AkashicMCP
